import Mathlib

/-!
Verification of the Flask item-store service (src/app.py) against its
natural-language specification.

The embedding is shallow and functional: the module-level Python list
`items` becomes an explicit `List ItemRec` threaded through the handlers,
and each handler of the `Item` resource becomes a pure function returning
the response together with the resulting store.  A Python exception that
escapes a handler (the `ValueError` raised by `int(...)` on a non-numeric
token, which the framework turns into a 500-class server error) is
modelled by `Except.error`.

Numeric values are modelled by `Rat`.  The handlers never perform float
arithmetic: the only numeric operations are parsing (decimal text to
value), `max`, `+ 1` and equality, all of which are exact on the decimal
inputs involved, so `Rat` is a faithful carrier for every in-range value.
Overflow of the double range is modelled, because it changes whether a
price validates: any parsed magnitude at or beyond the rounding boundary
to infinity classifies as a signed infinity (see `PyFloat.clamp`), as it
does under CPython's decimal-to-double conversion.  Rounding strictly
inside the finite range is not modelled: it maps finite values to finite
values and no handler computes with or re-serializes them in a way any
claim observes.
-/

set_option maxRecDepth 8192

set_option exponentiation.threshold 1100

/-- Python blank characters stripped by `int(...)` and `float(...)` on
string arguments (ASCII subset). -/
def isPySpace (c : Char) : Bool :=
  c = ' ' ∨ c = '\t' ∨ c = '\n' ∨ c = '\r'

/-- Strip leading and trailing blank characters, as CPython does before
parsing a numeric token. -/
def stripPySpace (cs : List Char) : List Char :=
  ((cs.dropWhile isPySpace).reverse.dropWhile isPySpace).reverse

/-- Continuation of a digit run after its first digit: decimal digits with
optional single underscores between digits (PEP 515 grouping).  Returns
the digits with the underscores removed, or `none` if malformed. -/
def digitsTail : List Char → Option (List Char)
  | [] => some []
  | ['_'] => none
  | '_' :: c :: cs =>
    if c.isDigit then (digitsTail cs).map (fun ds => c :: ds) else none
  | c :: cs =>
    if c.isDigit then (digitsTail cs).map (fun ds => c :: ds) else none

/-- A nonempty decimal digit run with optional underscore grouping, per
the CPython numeric-token grammar; yields the bare digits. -/
def groupedDigits : List Char → Option (List Char)
  | [] => none
  | c :: cs =>
    if c.isDigit then (digitsTail cs).map (fun ds => c :: ds) else none

/-- Numeric value of a list of decimal digits. -/
def digitsToNat (ds : List Char) : Nat :=
  ds.foldl (fun a c => 10 * a + (c.toNat - 48)) 0

/-- Optional sign followed by a grouped digit run, as an integer. -/
def signedDigits (cs : List Char) : Option Int :=
  match cs with
  | '+' :: rest => (groupedDigits rest).map (fun ds => (digitsToNat ds : Int))
  | '-' :: rest => (groupedDigits rest).map (fun ds => -(digitsToNat ds : Int))
  | rest => (groupedDigits rest).map (fun ds => (digitsToNat ds : Int))

/-- Python `int(s)` on an ASCII string token: strip blanks, optional sign,
decimal digits with underscore grouping; `none` models the `ValueError`
raised on any other input. -/
def pyInt (s : String) : Option Int :=
  signedDigits (stripPySpace s.toList)

/-- Result of Python `float(...)`: a finite value, a signed infinity, or
a not-a-number. -/
inductive PyFloat where
  | finite (q : ℚ)
  | inf
  | neginf
  | nan
deriving Repr, DecidableEq

/-- Negation of a `PyFloat`, used for a leading minus sign. -/
def PyFloat.neg : PyFloat → PyFloat
  | .finite q => .finite (-q)
  | .inf => .neginf
  | .neginf => .inf
  | .nan => .nan

/-- Smallest magnitude that rounds to infinity under IEEE-754
double-precision round-to-nearest-even: the midpoint between the largest
finite double, 2 ^ 1024 - 2 ^ 971, and 2 ^ 1024 (the midpoint itself
rounds to the even neighbour, infinity). -/
def overflowBound : ℚ :=
  ((2 ^ 1024 - 2 ^ 970 : ℕ) : ℚ)

/-- Double classification of an exactly parsed value: magnitudes at or
beyond the rounding boundary become the signed infinity, exactly as in
CPython's decimal-to-double conversion (so float("1e400") is inf);
in-range values keep their exact magnitude. -/
def PyFloat.clamp : PyFloat → PyFloat
  | .finite q =>
    if overflowBound ≤ q then .inf
    else if q ≤ -overflowBound then .neginf
    else .finite q
  | f => f

/-- Split a character list at the first `e` or `E` (exponent marker). -/
def splitOnExp : List Char → List Char × Option (List Char)
  | [] => ([], none)
  | c :: cs =>
    if c = 'e' ∨ c = 'E' then ([], some cs)
    else
      let r := splitOnExp cs
      (c :: r.1, r.2)

/-- Split a character list at the first decimal point. -/
def splitOnDot : List Char → List Char × Option (List Char)
  | [] => ([], none)
  | c :: cs =>
    if c = '.' then ([], some cs)
    else
      let r := splitOnDot cs
      (c :: r.1, r.2)

/-- Decimal significand of a float mantissa (`digits`, `digits.`,
`digits.digits` or `.digits`): the value `n` of all its digits and the
count `k` of fraction digits, denoting the exact rational
`n / 10 ^ k`. -/
def parseMantissa (cs : List Char) : Option (Nat × Nat) :=
  match splitOnDot cs with
  | (ip, none) => (groupedDigits ip).map (fun ds => (digitsToNat ds, 0))
  | ([], some []) => none
  | ([], some fp) => (groupedDigits fp).map (fun ds => (digitsToNat ds, ds.length))
  | (ip, some []) => (groupedDigits ip).map (fun ds => (digitsToNat ds, 0))
  | (ip, some fp) =>
    match groupedDigits ip, groupedDigits fp with
    | some ids, some fds =>
      some (digitsToNat ids * 10 ^ fds.length + digitsToNat fds, fds.length)
    | _, _ => none

/-- Exact rational value `n * 10 ^ e / 10 ^ k` of a decimal significand
`n / 10 ^ k` under a decimal exponent `e`. -/
def decValue (n k : Nat) (e : Int) : ℚ :=
  match e - (k : Int) with
  | .ofNat t => ((n * 10 ^ t : ℕ) : ℚ)
  | .negSucc t => mkRat n (10 ^ (t + 1))

/-- Body of a float token after sign stripping: the words `inf`,
`infinity`, `nan` (case-insensitive) or a mantissa with an optional
exponent. -/
def parseFloatBody (cs : List Char) : Option PyFloat :=
  let lower := cs.map Char.toLower
  if lower = "inf".toList ∨ lower = "infinity".toList then some PyFloat.inf
  else if lower = "nan".toList then some PyFloat.nan
  else
    match splitOnExp cs with
    | (m, none) =>
      (parseMantissa m).map (fun nk => PyFloat.finite (decValue nk.1 nk.2 0))
    | (m, some e) =>
      match parseMantissa m, signedDigits e with
      | some nk, some ex => some (PyFloat.finite (decValue nk.1 nk.2 ex))
      | _, _ => none

/-- Python `float(s)` on an ASCII string token: strip blanks, optional
sign, then a float body; `none` models the `ValueError` on other input.
The value of a decimal literal is kept exact (see the module comment). -/
def pyFloat (s : String) : Option PyFloat :=
  (match stripPySpace s.toList with
  | '+' :: rest => parseFloatBody rest
  | '-' :: rest => (parseFloatBody rest).map PyFloat.neg
  | rest => parseFloatBody rest).map PyFloat.clamp

/-- A JSON value as produced by `request.get_json()`.  Array elements and
nested object fields never influence the handlers (validation looks only
at the outermost tag of a field value), so they are not carried. -/
inductive JValue where
  | null
  | bool (b : Bool)
  | num (q : ℚ)
  | str (s : String)
  | arr
  | obj (fields : List (String × JValue))

/-- Python `float(value)` on a JSON-decoded value: numbers pass through,
strings are parsed, booleans coerce to 0 or 1, anything else raises
`TypeError` (modelled by `none`).  A `JValue.num` carries the exact value
of the JSON numeric literal; a literal beyond the double range has
already decoded to an infinity before `float(...)` sees it, so the double
classification is applied here. -/
def floatOfJValue : JValue → Option PyFloat
  | .num q => some (PyFloat.clamp (PyFloat.finite q))
  | .str s => pyFloat s
  | .bool b => some (PyFloat.finite (if b then 1 else 0))
  | _ => none

/-- The marshmallow `fields.Float` deserializer with its default
`allow_nan = False`: booleans are rejected outright before any coercion
(the `value is True or value is False` guard in `Number._validated`, even
though `float(True)` coerces in Python); otherwise coerce with
`float(...)` and reject the special values nan and the two infinities. -/
def floatField (v : JValue) : Option ℚ :=
  match v with
  | .bool _ => none
  | _ =>
    match floatOfJValue v with
    | some (PyFloat.finite q) => some q
    | _ => none

/-- The marshmallow `fields.Str` deserializer: accepts exactly strings. -/
def strField : JValue → Option String
  | .str s => some s
  | _ => none

/-- `item_schema.load(...)` for `ItemSchema` (`name` a required `Str`,
`price` a required `Float`), with marshmallow defaults: the input must be
an object, unknown fields are rejected (`unknown = RAISE`), both fields
are required, and each field value is deserialized.  `none` models a
`ValidationError`, which the handlers turn into a 400 response. -/
def itemSchemaLoad (body : JValue) : Option (String × ℚ) :=
  match body with
  | .obj fields =>
    if fields.all (fun kv => kv.1 == "name" || kv.1 == "price") then
      match fields.lookup "name", fields.lookup "price" with
      | some nv, some pv =>
        match strField nv, floatField pv with
        | some n, some p => some (n, p)
        | _, _ => none
      | _, _ => none
    else none
  | _ => none

/-- One record of the in-memory store: a dict with keys `id`, `name`,
`price`. -/
structure ItemRec where
  id : Int
  name : String
  price : ℚ
deriving Repr, DecidableEq

/-- The seed collection the module initializes `items` with. -/
def seedItems : List ItemRec :=
  [⟨1, "Laptop", 1500⟩, ⟨2, "Phone", 800⟩, ⟨3, "Tablet", 500⟩]

/-- The distinct response shapes the handlers return, each standing for
the literal (json, status) pair built at the corresponding return site. -/
inductive Resp where
  | allItems (xs : List ItemRec)
  | oneItem (it : ItemRec)
  | notFound
  | invalidInput
  | created (it : ItemRec)
  | updated (it : ItemRec)
  | deleted
deriving Repr, DecidableEq

/-- HTTP status of each response shape, read off the return sites. -/
def Resp.status : Resp → Nat
  | .allItems _ => 200
  | .oneItem _ => 200
  | .notFound => 404
  | .invalidInput => 400
  | .created _ => 201
  | .updated _ => 200
  | .deleted => 200

/-- The `message` field of each response body, read off the return sites. -/
def Resp.message : Resp → Option String
  | .allItems _ => none
  | .oneItem _ => none
  | .notFound => some "Item not found"
  | .invalidInput => some "Invalid input"
  | .created _ => some "Item created"
  | .updated _ => some "Item updated"
  | .deleted => some "Item deleted"

/-- The Python exceptions a handler can let escape. -/
inductive PyExc where
  | valueError
deriving Repr, DecidableEq

/-- `Item.get`: with a falsy `item_id` (absent or empty) return the whole
collection; otherwise scan for a record whose id equals `int(item_id)`.
The generator evaluates `int(item_id)` only when it examines a record, so
on an empty collection no `ValueError` can arise and the result is a 404;
on a nonempty collection a non-numeric token raises. -/
def Item.get (items : List ItemRec) (item_id : Option String) : Except PyExc Resp :=
  match item_id with
  | none => Except.ok (Resp.allItems items)
  | some s =>
    if s = "" then Except.ok (Resp.allItems items)
    else
      match items with
      | [] => Except.ok Resp.notFound
      | _ =>
        match pyInt s with
        | none => Except.error PyExc.valueError
        | some k =>
          match items.find? (fun it => it.id = k) with
          | none => Except.ok Resp.notFound
          | some it => Except.ok (Resp.oneItem it)

/-- Auto-increment id logic of `Item.post`: one more than the maximum id
when the collection is nonempty, else 1. -/
def nextId (items : List ItemRec) : Int :=
  match (items.map (fun it => it.id)).max? with
  | some m => m + 1
  | none => 1

/-- `Item.post`: validate the body with the schema (400 on failure), then
assign the auto-increment id, append the record and return 201. -/
def Item.post (items : List ItemRec) (body : JValue) : Resp × List ItemRec :=
  match itemSchemaLoad body with
  | none => (Resp.invalidInput, items)
  | some (n, p) =>
    let data : ItemRec := ⟨nextId items, n, p⟩
    (Resp.created data, items ++ [data])

/-- Overwrite the `name` and `price` of the first record whose id is `k`,
keeping its id: the in-place `existing_item.update(data)` on the object
found by the scan. -/
def replaceFirstById (items : List ItemRec) (k : Int) (n : String) (p : ℚ) :
    List ItemRec :=
  match items with
  | [] => []
  | it :: rest =>
    if it.id = k then { it with name := n, price := p } :: rest
    else it :: replaceFirstById rest k n p

/-- `Item.put`: scan for `int(item_id)` (404 when absent; the lazy
generator again raises only on a nonempty collection), then validate the
body (400 on failure), then update the matched record in place and return
it with 200. -/
def Item.put (items : List ItemRec) (item_id : String) (body : JValue) :
    Except PyExc Resp × List ItemRec :=
  match items with
  | [] => (Except.ok Resp.notFound, items)
  | _ =>
    match pyInt item_id with
    | none => (Except.error PyExc.valueError, items)
    | some k =>
      match items.find? (fun it => it.id = k) with
      | none => (Except.ok Resp.notFound, items)
      | some old =>
        match itemSchemaLoad body with
        | none => (Except.ok Resp.invalidInput, items)
        | some (n, p) =>
          (Except.ok (Resp.updated ⟨old.id, n, p⟩), replaceFirstById items k n p)

/-- `Item.delete`: scan for `int(item_id)` (404 when absent), then rebind
the collection to the records whose id differs and return 200. -/
def Item.delete (items : List ItemRec) (item_id : String) :
    Except PyExc Resp × List ItemRec :=
  match items with
  | [] => (Except.ok Resp.notFound, items)
  | _ =>
    match pyInt item_id with
    | none => (Except.error PyExc.valueError, items)
    | some k =>
      match items.find? (fun it => it.id = k) with
      | none => (Except.ok Resp.notFound, items)
      | some _ => (Except.ok Resp.deleted, items.filter (fun it => it.id ≠ k))

/-- One request against the service, as routed to the `Item` resource. -/
inductive Op where
  | list
  | getOne (tok : String)
  | create (body : JValue)
  | update (tok : String) (body : JValue)
  | remove (tok : String)

/-- The store state after serving one request (requests whose handler
raises leave the collection as it was, since the raise happens before any
mutation). -/
def step (items : List ItemRec) : Op → List ItemRec
  | .list => items
  | .getOne _ => items
  | .create body => (Item.post items body).2
  | .update tok body => (Item.put items tok body).2
  | .remove tok => (Item.delete items tok).2

/-- The store state after serving a sequence of requests. -/
def runOps (items : List ItemRec) : List Op → List ItemRec
  | [] => items
  | op :: ops => runOps (step items op) ops

/-- A concrete valid create payload (the one used by the repository
tests). -/
def monitorPayload : JValue :=
  JValue.obj [("name", JValue.str "Monitor"), ("price", JValue.num 300)]

/-- A concrete valid update payload (the one used by the repository
tests). -/
def gamingPayload : JValue :=
  JValue.obj [("name", JValue.str "Gaming Laptop"), ("price", JValue.num 2000)]

/-- A concrete invalid payload: both required fields missing. -/
def emptyPayload : JValue :=
  JValue.obj []

/-! ## Helper lemmas about the store primitives -/

/-- The id scan misses exactly when no record carries the id. -/
theorem find?_id_eq_none (items : List ItemRec) (k : Int)
    (h : ∀ it ∈ items, it.id ≠ k) :
    items.find? (fun it => it.id = k) = none := by
  rw [List.find?_eq_none]
  intro it hmem
  simpa using h it hmem

/-- A successful id scan returns a member carrying the id. -/
theorem find?_id_some_mem (items : List ItemRec) (k : Int) (old : ItemRec)
    (h : items.find? (fun it => it.id = k) = some old) :
    old ∈ items ∧ old.id = k := by
  refine ⟨List.mem_of_find?_eq_some h, ?_⟩
  simpa using List.find?_some h

/-- Characterization of `List.max?` on integers. -/
theorem int_max?_spec (l : List Int) (m : Int) (h : l.max? = some m) :
    m ∈ l ∧ ∀ x ∈ l, x ≤ m := by
  have anti : Std.Antisymm ((· : Int) ≤ ·) := ⟨fun h1 h2 => le_antisymm h1 h2⟩
  rw [List.max?_eq_some_iff (fun a => le_refl a) (fun a b => max_choice a b)
    (fun _ _ _ => max_le_iff)] at h
  exact h

/-- Every stored id is strictly below the next auto-increment id. -/
theorem nextId_gt (items : List ItemRec) : ∀ it ∈ items, it.id < nextId items := by
  intro it hmem
  unfold nextId
  cases hmax : (items.map (fun x => x.id)).max? with
  | none =>
    rw [List.max?_eq_none_iff, List.map_eq_nil_iff] at hmax
    subst hmax
    simp at hmem
  | some m =>
    have hle := (int_max?_spec _ m hmax).2 it.id (List.mem_map_of_mem _ hmem)
    simpa using lt_of_le_of_lt hle (by omega)

/-- On a nonempty store the next id is the successor of some stored id. -/
theorem nextId_succ_mem (items : List ItemRec) (h : items ≠ []) :
    ∃ it ∈ items, nextId items = it.id + 1 := by
  unfold nextId
  cases hmax : (items.map (fun x => x.id)).max? with
  | none =>
    rw [List.max?_eq_none_iff, List.map_eq_nil_iff] at hmax
    exact absurd hmax h
  | some m =>
    obtain ⟨it, hit, hid⟩ := List.mem_map.1 (int_max?_spec _ m hmax).1
    exact ⟨it, hit, by simp [hid]⟩

/-- The in-place update never changes the sequence of ids. -/
theorem replaceFirstById_map_id (items : List ItemRec) (k : Int) (n : String) (p : ℚ) :
    (replaceFirstById items k n p).map (fun it => it.id) =
      items.map (fun it => it.id) := by
  induction items with
  | nil => rfl
  | cons it rest ih =>
    unfold replaceFirstById
    by_cases h : it.id = k
    · simp [h]
    · simp [h, ih]

/-- Splitting view of the in-place update around the first matching
record: the earlier records miss the id and everything but the matched
record is untouched. -/
theorem replaceFirstById_split (items : List ItemRec) (k : Int) (n : String) (p : ℚ)
    (old : ItemRec) (h : items.find? (fun it => it.id = k) = some old) :
    ∃ l1 l2, items = l1 ++ old :: l2 ∧
      replaceFirstById items k n p = l1 ++ ⟨old.id, n, p⟩ :: l2 ∧
      ∀ it ∈ l1, it.id ≠ k := by
  induction items with
  | nil => simp at h
  | cons it rest ih =>
    by_cases hid : it.id = k
    · rw [List.find?_cons_of_pos _ (by simpa using hid)] at h
      obtain rfl : it = old := by injection h
      refine ⟨[], rest, by simp, ?_, by simp⟩
      unfold replaceFirstById
      simp [hid]
    · rw [List.find?_cons_of_neg _ (by simpa using hid)] at h
      obtain ⟨l1, l2, h1, h2, h3⟩ := ih h
      refine ⟨it :: l1, l2, by simp [h1], ?_, ?_⟩
      · unfold replaceFirstById
        simp [hid, h2]
      · intro x hx
        rcases List.mem_cons.1 hx with rfl | hx
        · exact hid
        · exact h3 x hx

/-- A scan over a list ending in the only record carrying the id finds
that record. -/
theorem find?_append_last (items : List ItemRec) (a : ItemRec) (k : Int)
    (hk : a.id = k) (h : ∀ it ∈ items, it.id ≠ k) :
    (items ++ [a]).find? (fun it => it.id = k) = some a := by
  induction items with
  | nil =>
    show List.find? (fun it => it.id = k) (a :: []) = some a
    exact List.find?_cons_of_pos _ (by simpa using hk)
  | cons it rest ih =>
    have hne : ¬ (it.id = k) := h it (List.mem_cons_self it rest)
    rw [List.cons_append, List.find?_cons_of_neg _ (by simpa using hne)]
    exact ih fun x hx => h x (List.mem_cons_of_mem _ hx)

/-! ## Path lemmas for the handlers -/

/-- The empty token is rejected by `int(...)`. -/
theorem pyInt_empty : pyInt "" = none := rfl

/-- A token accepted by `int(...)` is not the empty string. -/
theorem pyInt_some_ne_empty (tok : String) (k : Int) (hk : pyInt tok = some k) :
    tok ≠ "" := by
  rintro rfl
  rw [pyInt_empty] at hk
  exact Option.noConfusion hk

/-- Get path: parseable token, no matching record. -/
theorem get_eq_notFound (items : List ItemRec) (tok : String) (k : Int)
    (hk : pyInt tok = some k)
    (h : items.find? (fun it => it.id = k) = none) :
    Item.get items (some tok) = Except.ok Resp.notFound := by
  have htok := pyInt_some_ne_empty tok k hk
  cases items with
  | nil => simp [Item.get, htok]
  | cons it rest => simp [Item.get, htok, hk, h]

/-- Get path: parseable token, matching record found. -/
theorem get_eq_oneItem (items : List ItemRec) (tok : String) (k : Int) (it0 : ItemRec)
    (hk : pyInt tok = some k)
    (h : items.find? (fun it => it.id = k) = some it0) :
    Item.get items (some tok) = Except.ok (Resp.oneItem it0) := by
  have htok := pyInt_some_ne_empty tok k hk
  cases items with
  | nil => simp at h
  | cons it rest => simp [Item.get, htok, hk, h]

/-- Get path: unparseable token over a nonempty collection raises. -/
theorem get_eq_error (items : List ItemRec) (tok : String)
    (hk : pyInt tok = none) (hne : items ≠ []) (htok : tok ≠ "") :
    Item.get items (some tok) = Except.error PyExc.valueError := by
  cases items with
  | nil => exact absurd rfl hne
  | cons it rest => simp [Item.get, htok, hk]

/-- Post path: validation failure. -/
theorem post_eq_invalid (items : List ItemRec) (body : JValue)
    (h : itemSchemaLoad body = none) :
    Item.post items body = (Resp.invalidInput, items) := by
  simp [Item.post, h]

/-- Post path: validation success. -/
theorem post_eq_created (items : List ItemRec) (body : JValue) (n : String) (p : ℚ)
    (h : itemSchemaLoad body = some (n, p)) :
    Item.post items body =
      (Resp.created ⟨nextId items, n, p⟩, items ++ [⟨nextId items, n, p⟩]) := by
  simp [Item.post, h]

/-- Put path: parseable token, no matching record. -/
theorem put_eq_notFound (items : List ItemRec) (tok : String) (k : Int) (body : JValue)
    (hk : pyInt tok = some k)
    (h : items.find? (fun it => it.id = k) = none) :
    Item.put items tok body = (Except.ok Resp.notFound, items) := by
  cases items with
  | nil => rfl
  | cons it rest => simp [Item.put, hk, h]

/-- Put path: record found but the body fails validation. -/
theorem put_eq_invalid (items : List ItemRec) (tok : String) (k : Int) (body : JValue)
    (old : ItemRec) (hk : pyInt tok = some k)
    (hfind : items.find? (fun it => it.id = k) = some old)
    (hload : itemSchemaLoad body = none) :
    Item.put items tok body = (Except.ok Resp.invalidInput, items) := by
  cases items with
  | nil => simp at hfind
  | cons it rest => simp [Item.put, hk, hfind, hload]

/-- Put path: record found and the body validates. -/
theorem put_eq_updated (items : List ItemRec) (tok : String) (k : Int) (body : JValue)
    (old : ItemRec) (n : String) (p : ℚ) (hk : pyInt tok = some k)
    (hfind : items.find? (fun it => it.id = k) = some old)
    (hload : itemSchemaLoad body = some (n, p)) :
    Item.put items tok body =
      (Except.ok (Resp.updated ⟨old.id, n, p⟩), replaceFirstById items k n p) := by
  cases items with
  | nil => simp at hfind
  | cons it rest => simp [Item.put, hk, hfind, hload]

/-- Put path: unparseable token over a nonempty collection raises and
leaves the collection unchanged. -/
theorem put_eq_error (items : List ItemRec) (tok : String) (body : JValue)
    (hk : pyInt tok = none) (hne : items ≠ []) :
    Item.put items tok body = (Except.error PyExc.valueError, items) := by
  cases items with
  | nil => exact absurd rfl hne
  | cons it rest => simp [Item.put, hk]

/-- Delete path: parseable token, no matching record. -/
theorem delete_eq_notFound (items : List ItemRec) (tok : String) (k : Int)
    (hk : pyInt tok = some k)
    (h : items.find? (fun it => it.id = k) = none) :
    Item.delete items tok = (Except.ok Resp.notFound, items) := by
  cases items with
  | nil => rfl
  | cons it rest => simp [Item.delete, hk, h]

/-- Delete path: matching record found, collection filtered. -/
theorem delete_eq_deleted (items : List ItemRec) (tok : String) (k : Int)
    (old : ItemRec) (hk : pyInt tok = some k)
    (hfind : items.find? (fun it => it.id = k) = some old) :
    Item.delete items tok =
      (Except.ok Resp.deleted, items.filter (fun it => it.id ≠ k)) := by
  cases items with
  | nil => simp at hfind
  | cons it rest => simp [Item.delete, hk, hfind]

/-- Delete path: unparseable token over a nonempty collection raises and
leaves the collection unchanged. -/
theorem delete_eq_error (items : List ItemRec) (tok : String)
    (hk : pyInt tok = none) (hne : items ≠ []) :
    Item.delete items tok = (Except.error PyExc.valueError, items) := by
  cases items with
  | nil => exact absurd rfl hne
  | cons it rest => simp [Item.delete, hk]

/-- A put request never changes the sequence of stored ids. -/
theorem put_map_id (items : List ItemRec) (tok : String) (body : JValue) :
    ((Item.put items tok body).2).map (fun it => it.id) =
      items.map (fun it => it.id) := by
  cases items with
  | nil => rfl
  | cons it rest =>
    cases hk : pyInt tok with
    | none => simp [Item.put, hk]
    | some k =>
      cases hfind : (it :: rest).find? (fun x => x.id = k) with
      | none => simp [Item.put, hk, hfind]
      | some old =>
        cases hload : itemSchemaLoad body with
        | none => simp [Item.put, hk, hfind, hload]
        | some v =>
          obtain ⟨n, p⟩ := v
          rw [put_eq_updated (it :: rest) tok k body old n p hk hfind hload]
          exact replaceFirstById_map_id (it :: rest) k n p

/-- The store left by a delete request is a sublist of the store it was
given (either unchanged or filtered). -/
theorem delete_sublist (items : List ItemRec) (tok : String) :
    ((Item.delete items tok).2).Sublist items := by
  cases items with
  | nil => exact List.Sublist.refl _
  | cons it rest =>
    cases hk : pyInt tok with
    | none => rw [delete_eq_error (it :: rest) tok hk (by simp)]
    | some k =>
      cases hfind : (it :: rest).find? (fun x => x.id = k) with
      | none => rw [delete_eq_notFound (it :: rest) tok k hk hfind]
      | some old =>
        rw [delete_eq_deleted (it :: rest) tok k old hk hfind]
        exact List.filter_sublist _

/-- Serving any one request preserves distinctness of the stored ids. -/
theorem step_ids_nodup (items : List ItemRec) (op : Op)
    (h : (items.map (fun it => it.id)).Nodup) :
    ((step items op).map (fun it => it.id)).Nodup := by
  cases op with
  | list => exact h
  | getOne tok => exact h
  | create body =>
    show (((Item.post items body).2).map (fun it => it.id)).Nodup
    cases hload : itemSchemaLoad body with
    | none => rw [post_eq_invalid items body hload]; exact h
    | some v =>
      obtain ⟨n, p⟩ := v
      rw [post_eq_created items body n p hload]
      rw [List.map_append, List.nodup_append]
      refine ⟨h, by simp, ?_⟩
      intro x hx hx1
      simp only [List.map_cons, List.map_nil, List.mem_singleton] at hx1
      obtain ⟨it, hit, hid⟩ := List.mem_map.1 hx
      subst hx1
      exact absurd hid (ne_of_lt (by simpa using nextId_gt items it hit))
  | update tok body =>
    show (((Item.put items tok body).2).map (fun it => it.id)).Nodup
    rw [put_map_id]
    exact h
  | remove tok =>
    show (((Item.delete items tok).2).map (fun it => it.id)).Nodup
    exact h.sublist ((delete_sublist items tok).map _)

/-- Serving any request sequence preserves distinctness of the stored
ids. -/
theorem runOps_ids_nodup (items : List ItemRec)
    (h : (items.map (fun it => it.id)).Nodup) (ops : List Op) :
    ((runOps items ops).map (fun it => it.id)).Nodup := by
  induction ops generalizing items with
  | nil => exact h
  | cons op ops ih => exact ih _ (step_ids_nodup items op h)

/-- A value accepted by the `Str` field is that string. -/
theorem strField_some (v : JValue) (n : String) (h : strField v = some n) :
    v = JValue.str n := by
  cases v <;> simp_all [strField]

/-- On every non-boolean value the `Float` field is the coerce-and-screen
of `float(...)`. -/
theorem floatField_not_bool (v : JValue) (h : ∀ b, v ≠ JValue.bool b) :
    floatField v =
      (match floatOfJValue v with
        | some (PyFloat.finite q) => some q
        | _ => none) := by
  cases v with
  | bool b => exact absurd rfl (h b)
  | null => rfl
  | num q => rfl
  | str s => rfl
  | arr => rfl
  | obj fields => rfl

/-- A successful schema load exposes the payload: the body is an object
whose `name` field is exactly the loaded string and whose `price` field
deserializes to the loaded number. -/
theorem itemSchemaLoad_fields (body : JValue) (n : String) (p : ℚ)
    (h : itemSchemaLoad body = some (n, p)) :
    ∃ fields, body = JValue.obj fields ∧
      fields.lookup "name" = some (JValue.str n) ∧
      ∃ pv, fields.lookup "price" = some pv ∧ floatField pv = some p := by
  cases body with
  | obj fields =>
    refine ⟨fields, rfl, ?_⟩
    simp only [itemSchemaLoad] at h
    by_cases hall : (fields.all fun kv => kv.1 == "name" || kv.1 == "price") = true
    · rw [if_pos hall] at h
      cases hn : fields.lookup "name" with
      | none => rw [hn] at h; simp at h
      | some nv =>
        rw [hn] at h
        cases hp : fields.lookup "price" with
        | none => rw [hp] at h; simp at h
        | some pv =>
          rw [hp] at h
          have h2 : (match strField nv, floatField pv with
            | some n0, some p0 => some (n0, p0)
            | _, _ => none) = some (n, p) := h
          cases hs : strField nv with
          | none =>
            rw [hs] at h2
            have h3 : (none : Option (String × ℚ)) = some (n, p) := h2
            exact Option.noConfusion h3
          | some n0 =>
            rw [hs] at h2
            cases hf : floatField pv with
            | none =>
              rw [hf] at h2
              have h3 : (none : Option (String × ℚ)) = some (n, p) := h2
              exact Option.noConfusion h3
            | some p0 =>
              rw [hf] at h2
              have h3 : some (n0, p0) = some (n, p) := h2
              obtain ⟨rfl, rfl⟩ : n0 = n ∧ p0 = p := by simpa using h3
              exact ⟨congrArg some (strField_some nv n0 hs), pv, rfl, hf⟩
    · rw [if_neg hall] at h
      simp at h
  | null => simp [itemSchemaLoad] at h
  | bool b => simp [itemSchemaLoad] at h
  | num q => simp [itemSchemaLoad] at h
  | str s => simp [itemSchemaLoad] at h
  | arr => simp [itemSchemaLoad] at h

/-! ## Claims -/

/-- C1 (counterexample): on the seed store the get-by-id handler applied
to the token "abc", which does not parse as an integer, raises
`ValueError` (surfacing as a server error), not the 404 "Item not found"
response the claim demands for every non-resolving token. -/
theorem C1_counterexample :
    Item.get seedItems (some "abc") = Except.error PyExc.valueError ∧
    (Except.error PyExc.valueError : Except PyExc Resp) ≠ Except.ok Resp.notFound := by
  exact ⟨rfl, fun hcontra => Except.noConfusion hcontra⟩

/-- C1 (amended): an id token that parses as an integer matching no
stored id makes get, update and delete answer 404 "Item not found"
whatever the body; a token that does not parse as an integer makes all
three raise `ValueError` (a server error) whenever the collection is
nonempty, while on an empty collection the lazy scan never evaluates the
parse and the result is again 404. -/
theorem C1_amended (items : List ItemRec) (tok : String) :
    (∀ k : Int, pyInt tok = some k → (∀ it ∈ items, it.id ≠ k) →
      Item.get items (some tok) = Except.ok Resp.notFound ∧
      (∀ body, Item.put items tok body = (Except.ok Resp.notFound, items)) ∧
      Item.delete items tok = (Except.ok Resp.notFound, items) ∧
      Resp.notFound.status = 404 ∧ Resp.notFound.message = some "Item not found") ∧
    (pyInt tok = none → tok ≠ "" → items ≠ [] →
      Item.get items (some tok) = Except.error PyExc.valueError ∧
      (∀ body, Item.put items tok body = (Except.error PyExc.valueError, items)) ∧
      Item.delete items tok = (Except.error PyExc.valueError, items)) ∧
    (pyInt tok = none → tok ≠ "" → items = [] →
      Item.get items (some tok) = Except.ok Resp.notFound ∧
      (∀ body, Item.put items tok body = (Except.ok Resp.notFound, items)) ∧
      Item.delete items tok = (Except.ok Resp.notFound, items)) := by
  refine ⟨?_, ?_, ?_⟩
  · intro k hk hnone
    have hfind := find?_id_eq_none items k hnone
    exact ⟨get_eq_notFound items tok k hk hfind,
      fun body => put_eq_notFound items tok k body hk hfind,
      delete_eq_notFound items tok k hk hfind, rfl, rfl⟩
  · intro hk htok hne
    exact ⟨get_eq_error items tok hk hne htok,
      fun body => put_eq_error items tok body hk hne,
      delete_eq_error items tok hk hne⟩
  · intro hk htok hnil
    subst hnil
    exact ⟨by simp [Item.get, htok], fun body => rfl, rfl⟩

/-- C1 (witness): the amended claim instantiated at the seed store with
the unmatched numeric token "9" and the non-numeric token "abc". -/
theorem C1_amended_witness :
    (Item.get seedItems (some "9") = Except.ok Resp.notFound ∧
      Item.delete seedItems "9" = (Except.ok Resp.notFound, seedItems)) ∧
    Item.get seedItems (some "abc") = Except.error PyExc.valueError := by
  refine ⟨⟨?_, ?_⟩, ?_⟩
  · exact ((C1_amended seedItems "9").1 9 (by decide) (by decide)).1
  · exact ((C1_amended seedItems "9").1 9 (by decide) (by decide)).2.2.1
  · exact ((C1_amended seedItems "abc").2.1 (by decide) (by decide) (by decide)).1

/-- C2: for every valid create payload, the response is 201 "Item
created", the record is appended at the end of the collection, and the
assigned id is strictly above every id present before the call and equal
to some present id plus one (hence one more than the maximum), or 1 when
the store was empty. -/
theorem C2_assigned_id (items : List ItemRec) (body : JValue) (n : String) (p : ℚ)
    (hload : itemSchemaLoad body = some (n, p)) :
    ∃ newIt : ItemRec,
      (Item.post items body).1 = Resp.created newIt ∧
      (Resp.created newIt).status = 201 ∧
      (Item.post items body).2 = items ++ [newIt] ∧
      newIt.name = n ∧ newIt.price = p ∧
      (items = [] → newIt.id = 1) ∧
      (∀ it ∈ items, it.id < newIt.id) ∧
      (items ≠ [] → ∃ it ∈ items, newIt.id = it.id + 1) := by
  refine ⟨⟨nextId items, n, p⟩, ?_, rfl, ?_, rfl, rfl, ?_, nextId_gt items,
    nextId_succ_mem items⟩
  · rw [post_eq_created items body n p hload]
  · rw [post_eq_created items body n p hload]
  · intro h
    subst h
    rfl

/-- C2 (witness): the id assignment instantiated at the seed store and
the Monitor payload. -/
theorem C2_assigned_id_witness :
    ∃ newIt : ItemRec,
      (Item.post seedItems monitorPayload).1 = Resp.created newIt ∧
      (Resp.created newIt).status = 201 ∧
      (Item.post seedItems monitorPayload).2 = seedItems ++ [newIt] ∧
      newIt.name = "Monitor" ∧ newIt.price = 300 ∧
      (seedItems = [] → newIt.id = 1) ∧
      (∀ it ∈ seedItems, it.id < newIt.id) ∧
      (seedItems ≠ [] → ∃ it ∈ seedItems, newIt.id = it.id + 1) :=
  C2_assigned_id seedItems monitorPayload "Monitor" 300 (by decide)

/-- C3: an update whose parsed id matches no stored record answers 404
"Item not found" with the collection untouched, for every body whatever
its validity: the id is resolved before the body is validated. -/
theorem C3_notFound_before_validation (items : List ItemRec) (tok : String) (k : Int)
    (hk : pyInt tok = some k) (hnone : ∀ it ∈ items, it.id ≠ k) (body : JValue) :
    Item.put items tok body = (Except.ok Resp.notFound, items) ∧
    Resp.notFound.status = 404 ∧ Resp.notFound.message = some "Item not found" :=
  ⟨put_eq_notFound items tok k body hk (find?_id_eq_none items k hnone), rfl, rfl⟩

/-- C3 (witness): id 7 matches nothing in the seed store and the empty
payload is invalid, yet the update answers 404, not 400. -/
theorem C3_witness :
    (Item.put seedItems "7" emptyPayload = (Except.ok Resp.notFound, seedItems) ∧
      Resp.notFound.status = 404 ∧ Resp.notFound.message = some "Item not found") ∧
    itemSchemaLoad emptyPayload = none :=
  ⟨C3_notFound_before_validation seedItems "7" 7 (by decide) (by decide) emptyPayload,
    by decide⟩

/-- C4: a create or update whose payload fails validation answers 400
"Invalid input" and leaves the collection entirely unchanged; for update
the body is only reached once the id resolves (compare C3), and with an
invalid body no update path ever mutates the collection. -/
theorem C4_validation_failure (items : List ItemRec) (body : JValue)
    (hload : itemSchemaLoad body = none) :
    Item.post items body = (Resp.invalidInput, items) ∧
    (∀ tok (k : Int) old, pyInt tok = some k →
      items.find? (fun it => it.id = k) = some old →
      Item.put items tok body = (Except.ok Resp.invalidInput, items)) ∧
    (∀ tok, (Item.put items tok body).2 = items) ∧
    Resp.invalidInput.status = 400 := by
  refine ⟨post_eq_invalid items body hload, ?_, ?_, rfl⟩
  · intro tok k old hk hfind
    exact put_eq_invalid items tok k body old hk hfind hload
  · intro tok
    cases items with
    | nil => rfl
    | cons it rest =>
      cases hk : pyInt tok with
      | none => simp [Item.put, hk]
      | some k =>
        cases hfind : (it :: rest).find? (fun x => x.id = k) with
        | none => simp [Item.put, hk, hfind]
        | some old => simp [Item.put, hk, hfind, hload]

/-- C4 (witness): the empty payload fails validation and both write
operations answer 400 leaving the seed store unchanged. -/
theorem C4_witness :
    Item.post seedItems emptyPayload = (Resp.invalidInput, seedItems) ∧
    Item.put seedItems "1" emptyPayload = (Except.ok Resp.invalidInput, seedItems) := by
  refine ⟨(C4_validation_failure seedItems emptyPayload (by decide)).1, ?_⟩
  exact (C4_validation_failure seedItems emptyPayload (by decide)).2.1 "1" 1
    ⟨1, "Laptop", 1500⟩ (by decide) (by decide)

/-- C5: starting from the three seed records, every sequence of requests
(list, get, create, update, delete with arbitrary tokens and bodies)
leaves the stored ids pairwise distinct. -/
theorem C5_ids_pairwise_distinct (ops : List Op) :
    ((runOps seedItems ops).map (fun it => it.id)).Nodup :=
  runOps_ids_nodup seedItems (by decide) ops

/-- C6: a successful update overwrites exactly the matched record's name
and price, keeps its id, leaves every other record unchanged, and answers
200 "Item updated" with the updated record. -/
theorem C6_update_in_place (items : List ItemRec) (tok : String) (k : Int)
    (body : JValue) (old : ItemRec) (n : String) (p : ℚ)
    (hk : pyInt tok = some k)
    (hfind : items.find? (fun it => it.id = k) = some old)
    (hload : itemSchemaLoad body = some (n, p)) :
    (Item.put items tok body).1 = Except.ok (Resp.updated ⟨old.id, n, p⟩) ∧
    (Resp.updated ⟨old.id, n, p⟩).status = 200 ∧
    (Resp.updated ⟨old.id, n, p⟩).message = some "Item updated" ∧
    ∃ l1 l2, items = l1 ++ old :: l2 ∧
      (Item.put items tok body).2 = l1 ++ ⟨old.id, n, p⟩ :: l2 := by
  have hput := put_eq_updated items tok k body old n p hk hfind hload
  obtain ⟨l1, l2, h1, h2, -⟩ := replaceFirstById_split items k n p old hfind
  refine ⟨by rw [hput], rfl, rfl, l1, l2, h1, ?_⟩
  rw [hput]
  exact h2

/-- C6 (witness): updating seed record 1 with the Gaming Laptop payload
rewrites its name and price in place. -/
theorem C6_update_in_place_witness :
    (Item.put seedItems "1" gamingPayload).1 =
      Except.ok (Resp.updated ⟨(1 : Int), "Gaming Laptop", 2000⟩) ∧
    (Resp.updated ⟨(1 : Int), "Gaming Laptop", 2000⟩).status = 200 ∧
    (Resp.updated ⟨(1 : Int), "Gaming Laptop", 2000⟩).message = some "Item updated" ∧
    ∃ l1 l2, seedItems = l1 ++ (⟨1, "Laptop", 1500⟩ : ItemRec) :: l2 ∧
      (Item.put seedItems "1" gamingPayload).2 =
        l1 ++ (⟨(1 : Int), "Gaming Laptop", 2000⟩ : ItemRec) :: l2 :=
  C6_update_in_place seedItems "1" 1 gamingPayload ⟨1, "Laptop", 1500⟩
    "Gaming Laptop" 2000 (by decide) (by decide) (by decide)

/-- C7: a successful delete answers 200 "Item deleted"; exactly the
records carrying the requested id disappear, the remaining records keep
their relative order (the result is a sublist of the original), and
afterwards both a get and a second delete for the same token answer 404. -/
theorem C7_delete_exact (items : List ItemRec) (tok : String) (k : Int) (old : ItemRec)
    (hk : pyInt tok = some k)
    (hfind : items.find? (fun it => it.id = k) = some old) :
    (Item.delete items tok).1 = Except.ok Resp.deleted ∧
    Resp.deleted.status = 200 ∧
    Resp.deleted.message = some "Item deleted" ∧
    ((Item.delete items tok).2).Sublist items ∧
    (∀ it ∈ (Item.delete items tok).2, it.id ≠ k) ∧
    (∀ it ∈ items, it.id ≠ k → it ∈ (Item.delete items tok).2) ∧
    Item.get ((Item.delete items tok).2) (some tok) = Except.ok Resp.notFound ∧
    Item.delete ((Item.delete items tok).2) tok =
      (Except.ok Resp.notFound, (Item.delete items tok).2) := by
  have hdel := delete_eq_deleted items tok k old hk hfind
  have h1 : (Item.delete items tok).1 = Except.ok Resp.deleted := by rw [hdel]
  have h2 : (Item.delete items tok).2 = items.filter (fun it => it.id ≠ k) := by
    rw [hdel]
  have hmiss : ∀ it ∈ (Item.delete items tok).2, it.id ≠ k := by
    rw [h2]
    intro it hmem
    simpa using (List.mem_filter.1 hmem).2
  refine ⟨h1, rfl, rfl, ?_, hmiss, ?_, ?_, ?_⟩
  · rw [h2]
    exact List.filter_sublist _
  · intro it hmem hne
    rw [h2]
    exact List.mem_filter.2 ⟨hmem, by simpa using hne⟩
  · exact get_eq_notFound _ tok k hk (find?_id_eq_none _ k hmiss)
  · exact delete_eq_notFound _ tok k hk (find?_id_eq_none _ k hmiss)

/-- C7 (witness): deleting id 3 from the seed store removes exactly the
Tablet record and a repeat delete or get answers 404. -/
theorem C7_delete_exact_witness :
    (Item.delete seedItems "3").1 = Except.ok Resp.deleted ∧
    Resp.deleted.status = 200 ∧
    Resp.deleted.message = some "Item deleted" ∧
    ((Item.delete seedItems "3").2).Sublist seedItems ∧
    (∀ it ∈ (Item.delete seedItems "3").2, it.id ≠ 3) ∧
    (∀ it ∈ seedItems, it.id ≠ 3 → it ∈ (Item.delete seedItems "3").2) ∧
    Item.get ((Item.delete seedItems "3").2) (some "3") = Except.ok Resp.notFound ∧
    Item.delete ((Item.delete seedItems "3").2) "3" =
      (Except.ok Resp.notFound, (Item.delete seedItems "3").2) :=
  C7_delete_exact seedItems "3" 3 ⟨3, "Tablet", 500⟩ (by decide) (by decide)

/-- C8: after a successful create, get-by-id with any token that parses
to the returned id answers 200 with exactly the created record, whose
name is the payload's name string and whose price is the deserialized
value of the payload's price field. -/
theorem C8_create_then_get (items : List ItemRec) (body : JValue) (n : String) (p : ℚ)
    (hload : itemSchemaLoad body = some (n, p)) :
    ∃ newIt : ItemRec,
      (Item.post items body).1 = Resp.created newIt ∧
      newIt.name = n ∧ newIt.price = p ∧
      (∃ fields, body = JValue.obj fields ∧
        fields.lookup "name" = some (JValue.str n) ∧
        ∃ pv, fields.lookup "price" = some pv ∧ floatField pv = some p) ∧
      ∀ tok, pyInt tok = some newIt.id →
        Item.get ((Item.post items body).2) (some tok) =
          Except.ok (Resp.oneItem newIt) ∧
        (Resp.oneItem newIt).status = 200 := by
  refine ⟨⟨nextId items, n, p⟩, ?_, rfl, rfl, itemSchemaLoad_fields body n p hload, ?_⟩
  · rw [post_eq_created items body n p hload]
  · intro tok htok
    refine ⟨?_, rfl⟩
    have hpost : (Item.post items body).2 = items ++ [⟨nextId items, n, p⟩] := by
      rw [post_eq_created items body n p hload]
    rw [hpost]
    apply get_eq_oneItem _ tok (nextId items) _ htok
    apply find?_append_last items _ (nextId items) rfl
    intro it hmem
    exact ne_of_lt (nextId_gt items it hmem)

/-- C8 (witness): creating the Monitor item on the seed store and reading
it back through token "4". -/
theorem C8_create_then_get_witness :
    ∃ newIt : ItemRec,
      (Item.post seedItems monitorPayload).1 = Resp.created newIt ∧
      newIt.name = "Monitor" ∧ newIt.price = 300 ∧
      (∃ fields, monitorPayload = JValue.obj fields ∧
        fields.lookup "name" = some (JValue.str "Monitor") ∧
        ∃ pv, fields.lookup "price" = some pv ∧ floatField pv = some 300) ∧
      ∀ tok, pyInt tok = some newIt.id →
        Item.get ((Item.post seedItems monitorPayload).2) (some tok) =
          Except.ok (Resp.oneItem newIt) ∧
        (Resp.oneItem newIt).status = 200 :=
  C8_create_then_get seedItems monitorPayload "Monitor" 300 (by decide)

/-- C9 (counterexample): from the reachable store holding ids 1 and 3
(the seed minus id 2), the id 3 record holds the current maximum; after
deleting it, the next successful create assigns id 2, not id 3 again. -/
theorem C9_counterexample :
    (((Item.delete seedItems "2").2).map (fun it => it.id)).max? = some 3 ∧
    (Item.post ((Item.delete ((Item.delete seedItems "2").2) "3").2)
        monitorPayload).1 = Resp.created ⟨2, "Monitor", 300⟩ ∧
    (⟨2, "Monitor", 300⟩ : ItemRec).id ≠ 3 := by
  exact ⟨by decide, by decide, by decide⟩

/-- C9 (amended): ids are re-used across the store's history: after
deleting the record holding the current maximum id m, the next successful
create assigns one more than the maximum remaining id, which equals m
exactly when no gap separates m from the remaining maximum (as with the
seed store), and equals 1 when nothing remains. -/
theorem C9_amended (items : List ItemRec) (tok : String) (m : Int) (body : JValue)
    (n : String) (p : ℚ)
    (hk : pyInt tok = some m)
    (hmax : (items.map (fun it => it.id)).max? = some m)
    (hload : itemSchemaLoad body = some (n, p)) :
    (Item.delete items tok).1 = Except.ok Resp.deleted ∧
    ∃ newIt : ItemRec,
      (Item.post ((Item.delete items tok).2) body).1 = Resp.created newIt ∧
      ((Item.delete items tok).2 = [] → newIt.id = 1) ∧
      ((Item.delete items tok).2 ≠ [] →
        ∃ it ∈ (Item.delete items tok).2, newIt.id = it.id + 1) ∧
      ((((Item.delete items tok).2).map (fun it => it.id)).max? = some (m - 1) →
        newIt.id = m) := by
  obtain ⟨mmem, -⟩ := int_max?_spec _ m hmax
  obtain ⟨it0, hit0, hid0⟩ := List.mem_map.1 mmem
  have hsome : (items.find? (fun it => it.id = m)).isSome := by
    rw [List.find?_isSome]
    exact ⟨it0, hit0, by simpa using hid0⟩
  obtain ⟨old, hfind⟩ := Option.isSome_iff_exists.1 hsome
  have hdel := delete_eq_deleted items tok m old hk hfind
  refine ⟨by rw [hdel], ⟨nextId ((Item.delete items tok).2), n, p⟩, ?_, ?_, ?_, ?_⟩
  · rw [post_eq_created _ body n p hload]
  · intro hnil
    show nextId ((Item.delete items tok).2) = 1
    rw [hnil]
    rfl
  · intro hne
    simpa using nextId_succ_mem _ hne
  · intro hmax2
    show nextId ((Item.delete items tok).2) = m
    have : nextId ((Item.delete items tok).2) = m - 1 + 1 := by
      unfold nextId
      rw [hmax2]
    rw [this]
    omega

/-- C9 (witness): on the seed store itself the maximum id 3 is deleted
and the next create does re-assign id 3. -/
theorem C9_amended_witness :
    (Item.delete seedItems "3").1 = Except.ok Resp.deleted ∧
    ∃ newIt : ItemRec,
      (Item.post ((Item.delete seedItems "3").2) monitorPayload).1 =
        Resp.created newIt ∧
      ((Item.delete seedItems "3").2 = [] → newIt.id = 1) ∧
      ((Item.delete seedItems "3").2 ≠ [] →
        ∃ it ∈ (Item.delete seedItems "3").2, newIt.id = it.id + 1) ∧
      ((((Item.delete seedItems "3").2).map (fun it => it.id)).max? = some (3 - 1) →
        newIt.id = 3) :=
  C9_amended seedItems "3" 3 monitorPayload "Monitor" 300 (by decide) (by decide)
    (by decide)

/-- C10 (counterexample): the string price "inf" and the boolean price
true are both float-coercible in Python (to infinity and to 1.0), and the
string "1e400" coerces to infinity by overflow, yet validation rejects
all three payloads and create answers 400 "Invalid input": rejection is
not limited to values that cannot be coerced to a float. -/
theorem C10_counterexample :
    (floatOfJValue (JValue.str "inf") = some PyFloat.inf ∧
      (Item.post seedItems
          (JValue.obj [("name", JValue.str "A"), ("price", JValue.str "inf")])).1 =
        Resp.invalidInput) ∧
    (floatOfJValue (JValue.bool true) = some (PyFloat.finite 1) ∧
      (Item.post seedItems
          (JValue.obj [("name", JValue.str "A"), ("price", JValue.bool true)])).1 =
        Resp.invalidInput) ∧
    (pyFloat "1e400" = some PyFloat.inf ∧
      (Item.post seedItems
          (JValue.obj [("name", JValue.str "A"), ("price", JValue.str "1e400")])).1 =
        Resp.invalidInput) := by
  exact ⟨⟨by decide, by decide⟩, ⟨by decide, by decide⟩, ⟨by decide, by decide⟩⟩

/-- C10 (amended): a string price whose text parses as a finite float is
accepted and stored as that number; validation rejects the price of an
otherwise well-formed payload exactly when the value is a boolean (which
marshmallow rejects before coercing, although float coerces it), or
float coercion fails, or coercion yields one of the special values
infinity, negative infinity or nan (whether from the literal special
words or by overflow of the double range). -/
theorem C10_amended (items : List ItemRec) (n s : String) (q : ℚ)
    (hs : pyFloat s = some (PyFloat.finite q)) :
    (∃ newIt : ItemRec,
      (Item.post items
          (JValue.obj [("name", JValue.str n), ("price", JValue.str s)])).1 =
        Resp.created newIt ∧ newIt.name = n ∧ newIt.price = q) ∧
    ∀ pv : JValue,
      itemSchemaLoad (JValue.obj [("name", JValue.str n), ("price", pv)]) = none ↔
        ((∃ b, pv = JValue.bool b) ∨ floatOfJValue pv = none ∨
          floatOfJValue pv = some PyFloat.inf ∨
          floatOfJValue pv = some PyFloat.neginf ∨
          floatOfJValue pv = some PyFloat.nan) := by
  have hfs : floatField (JValue.str s) = some q := by
    have step0 : floatField (JValue.str s) =
        (match pyFloat s with
          | some (PyFloat.finite q0) => some q0
          | _ => none) := rfl
    rw [step0, hs]
  constructor
  · have hload : itemSchemaLoad
        (JValue.obj [("name", JValue.str n), ("price", JValue.str s)]) = some (n, q) := by
      have step : itemSchemaLoad
          (JValue.obj [("name", JValue.str n), ("price", JValue.str s)]) =
          (match (some n : Option String), floatField (JValue.str s) with
            | some n0, some p0 => some (n0, p0)
            | _, _ => none) := rfl
      rw [step, hfs]
    exact ⟨⟨nextId items, n, q⟩, by rw [post_eq_created items _ n q hload], rfl, rfl⟩
  · intro pv
    have step : itemSchemaLoad (JValue.obj [("name", JValue.str n), ("price", pv)]) =
        (match (some n : Option String), floatField pv with
          | some n0, some p0 => some (n0, p0)
          | _, _ => none) := rfl
    constructor
    · intro hnone
      by_cases hb : ∃ b, pv = JValue.bool b
      · exact Or.inl hb
      · have hnb : ∀ b, pv ≠ JValue.bool b := fun b hbe => hb ⟨b, hbe⟩
        have hrep := floatField_not_bool pv hnb
        cases hfv : floatOfJValue pv with
        | none => exact Or.inr (Or.inl rfl)
        | some f =>
          cases f with
          | finite q0 =>
            exfalso
            have hf0 : floatField pv = some q0 := by rw [hrep, hfv]
            rw [step, hf0] at hnone
            exact Option.noConfusion hnone
          | inf => exact Or.inr (Or.inr (Or.inl rfl))
          | neginf => exact Or.inr (Or.inr (Or.inr (Or.inl rfl)))
          | nan => exact Or.inr (Or.inr (Or.inr (Or.inr rfl)))
    · intro hbad
      have hf0 : floatField pv = none := by
        rcases hbad with ⟨b, rfl⟩ | h | h | h | h
        · rfl
        · have hnb : ∀ b, pv ≠ JValue.bool b := by
            rintro b rfl
            simp [floatOfJValue] at h
          rw [floatField_not_bool pv hnb, h]
        · have hnb : ∀ b, pv ≠ JValue.bool b := by
            rintro b rfl
            simp [floatOfJValue] at h
          rw [floatField_not_bool pv hnb, h]
        · have hnb : ∀ b, pv ≠ JValue.bool b := by
            rintro b rfl
            simp [floatOfJValue] at h
          rw [floatField_not_bool pv hnb, h]
        · have hnb : ∀ b, pv ≠ JValue.bool b := by
            rintro b rfl
            simp [floatOfJValue] at h
          rw [floatField_not_bool pv hnb, h]
      rw [step, hf0]

/-- C10 (witness): the string price "300" is accepted and stored as the
number 300, and the special string "nan" is float-coercible yet
rejected. -/
theorem C10_amended_witness :
    (∃ newIt : ItemRec,
      (Item.post seedItems
          (JValue.obj [("name", JValue.str "Monitor"),
            ("price", JValue.str "300")])).1 =
        Resp.created newIt ∧ newIt.name = "Monitor" ∧ newIt.price = 300) ∧
    (itemSchemaLoad (JValue.obj [("name", JValue.str "Monitor"),
        ("price", JValue.str "nan")]) = none ↔
      ((∃ b, JValue.str "nan" = JValue.bool b) ∨
        floatOfJValue (JValue.str "nan") = none ∨
        floatOfJValue (JValue.str "nan") = some PyFloat.inf ∨
        floatOfJValue (JValue.str "nan") = some PyFloat.neginf ∨
        floatOfJValue (JValue.str "nan") = some PyFloat.nan)) :=
  ⟨(C10_amended seedItems "Monitor" "300" 300 (by decide)).1,
    (C10_amended seedItems "Monitor" "300" 300 (by decide)).2 (JValue.str "nan")⟩
